import Mathlib

/-!
Verification development for the ttn-app payload codec.

This file gives a shallow embedding of the three core components of the
repository and proves properties of them:

* the value generator `_generate_value_from_field_def` (ttn-sim.py),
  embedded as `generateValueSpec`, which returns the support of the random
  draw the Python code performs (randomness itself is abstracted away:
  the embedding records exactly the parameters the code hands to
  `random.randint` / `random.choice`);
* the packer `_pack_generated_data` (ttn-sim.py), embedded as
  `packGeneratedData` over JSON-representable values (integers, strings,
  null); floating-point fields and the exotic struct codes (`f`, `d`, `e`,
  `s`, `x`, `c`, `?`, `n`, `N`, `P`) are not modelled — fields using them
  fall into the generic exception path of the embedding;
* the template loader `_load_payload_template_logic` (ttn-sim.py),
  embedded as `loadPayloadTemplate`;
* the decoder-code generator `generate_decoder_function`
  (js_decoder_generator.py), embedded as `generateDecoderFunction`
  producing the exact list of JavaScript source lines, together with
  `decodeUplinkSem`, the denotation of the JavaScript code that
  `generate_decoder_function` emits (DataView reads, `bytesToString`,
  BigInt `toString`), restricted to the integer/string/hex field kinds.

Bytes are modelled as natural numbers below 256 in `List Nat`; machine
integers are `Int` with explicit range checks and reduction modulo `2^(8*w)`
mirroring `struct.pack`.
-/

deriving instance DecidableEq for Except

namespace TTN

/-- JSON-representable values that can appear in a generated value set
(`generated_data` in the Python source): integers, strings, or Python's
`None`. -/
inductive Value where
  | vInt (n : Int)
  | vStr (s : String)
  | vNone
deriving DecidableEq, Repr

/-- The `values` attribute of a `choice` field: either a literal list of
choices or a mapping from symbolic label to numeric wire value
(a JSON object, hence string keys). -/
inductive ChoiceValues where
  | listVals (vs : List Value)
  | mapVals (m : List (String × Int))
deriving DecidableEq, Repr

/-- One field definition of a payload template: the attributes read by
`_generate_value_from_field_def`, `_pack_generated_data` and
`generate_decoder_function`.  Absent JSON attributes are `none`. -/
structure FieldDef where
  ftype : Option String
  packer : Option String
  byte_order : Option String
  minAttr : Option Int
  maxAttr : Option Int
  lengthAttr : Option Nat
  length_bytes : Option Nat
  charset : Option String
  encoding : Option String
  choiceValues : Option ChoiceValues
deriving DecidableEq, Repr

/-- A field definition with every attribute absent (the `{}` default used by
`field_defs.get(field_name, {})`). -/
def FieldDef.empty : FieldDef :=
  ⟨none, none, none, none, none, none, none, none, none, none⟩

/-- Helper to build field definitions concisely:
type, packer, byte order, length, length_bytes, charset, choice values. -/
def mkFD (t p bo : Option String) (len lb : Option Nat) (cs : Option String)
    (cv : Option ChoiceValues) : FieldDef :=
  ⟨t, p, bo, none, none, len, lb, cs, none, cv⟩

/-- A loaded payload template: the `_field_order` list and the `fields`
mapping (modelled as an association list, first binding wins, as in a JSON
object with unique keys). -/
structure Template where
  field_order : List String
  fields : List (String × FieldDef)
deriving DecidableEq, Repr

/-- A raw template document before validation: either top-level key may be
missing. -/
structure TemplateDoc where
  field_order : Option (List String)
  fields : Option (List (String × FieldDef))
deriving DecidableEq, Repr

/-- Python truthiness of the `packer` attribute: `field_def.get("packer")`
is used as `if packer:`, so an empty string behaves like an absent packer. -/
def getPacker (fd : FieldDef) : Option String :=
  match fd.packer with
  | some "" => none
  | x => x

/-- Fixed-width integer struct codes modelled by the embedding. -/
inductive IntCode where
  | i8 | u8 | i16 | u16 | i32 | u32 | i64 | u64
deriving DecidableEq, Repr

/-- The integer struct code denoted by a packer string, together with the
platform aliases `l`/`L` (standard-size 4-byte when an explicit byte-order
character is present, as `_pack_generated_data` always adds one for
multi-byte codes). -/
def intCodeOf : String → Option IntCode
  | "b" => some .i8
  | "B" => some .u8
  | "h" => some .i16
  | "H" => some .u16
  | "i" => some .i32
  | "I" => some .u32
  | "l" => some .i32
  | "L" => some .u32
  | "q" => some .i64
  | "Q" => some .u64
  | _ => none

/-- Standard (`>`/`<` prefixed) byte width of an integer code, as used by
`struct.pack` once `_pack_generated_data` has prefixed the byte-order
character. -/
def stdWidth : IntCode → Nat
  | .i8 => 1
  | .u8 => 1
  | .i16 => 2
  | .u16 => 2
  | .i32 => 4
  | .u32 => 4
  | .i64 => 8
  | .u64 => 8

/-- Signedness of an integer code. -/
def isSignedCode : IntCode → Bool
  | .i8 => true
  | .i16 => true
  | .i32 => true
  | .i64 => true
  | _ => false

/-- Native-mode `struct.calcsize`, as called on the cleaned packer string by
`_pack_generated_data` (only to decide whether a byte-order character is
needed) and on the lowercased packer by `_generate_value_from_field_def`.
On 64-bit Linux `calcsize('l') = calcsize('L') = 8`.  Unknown codes raise
in Python; here they are `none`. -/
def calcsizeNative : String → Option Nat
  | "b" => some 1
  | "B" => some 1
  | "h" => some 2
  | "H" => some 2
  | "i" => some 4
  | "I" => some 4
  | "l" => some 8
  | "L" => some 8
  | "q" => some 8
  | "Q" => some 8
  | _ => none

/-- The packer string with byte-order/alignment characters stripped, as in
`packer.replace('@','').replace('=','').replace('<','').replace('>','').replace('!','')`. -/
def cleanPacker (p : String) : String :=
  String.mk (p.data.filter
    (fun c => !(c == '@' || c == '=' || c == '<' || c == '>' || c == '!')))

/-- Range accepted by `struct.pack` for an integer code. -/
def inRange (c : IntCode) (v : Int) : Prop :=
  if isSignedCode c then
    -(2 ^ (8 * stdWidth c - 1)) ≤ v ∧ v < 2 ^ (8 * stdWidth c - 1)
  else
    0 ≤ v ∧ v < 2 ^ (8 * stdWidth c)

instance (c : IntCode) (v : Int) : Decidable (inRange c v) := by
  unfold inRange
  split <;> infer_instance

/-- Little-endian byte list of width `w` for a natural number `m`. -/
def leBytes (m w : Nat) : List Nat :=
  (List.range w).map (fun i => m / 256 ^ i % 256)

/-- Fixed-width binary encoding of an integer value: range-checked, then
two's-complement reduced modulo `2^(8*w)` and laid out in the requested
byte order, exactly as `struct.pack` with an explicit `>`/`<` prefix. -/
def packIntCode (c : IntCode) (isBig : Bool) (v : Int) : Option (List Nat) :=
  if inRange c v then
    let m := (v % ((2 : Int) ^ (8 * stdWidth c))).toNat
    some (if isBig then (leBytes m (stdWidth c)).reverse else leBytes m (stdWidth c))
  else none

/-- Python `str()` of a generated value: strings unchanged, integers in
decimal, `None` printed as `"None"`. -/
def natDecAux : Nat → Nat → List Char
  | 0, _ => []
  | fuel + 1, n =>
    if n = 0 then [] else natDecAux fuel (n / 10) ++ [Char.ofNat (48 + n % 10)]

/-- Decimal representation of a natural number (fuel-based so that it
reduces in the kernel). -/
def natDecRepr (n : Nat) : String :=
  if n = 0 then "0" else String.mk (natDecAux 30 n)

/-- Decimal representation of an integer, as produced both by Python
`str(int)` and by JavaScript `BigInt.prototype.toString`. -/
def intDecRepr (i : Int) : String :=
  if i < 0 then "-" ++ natDecRepr i.natAbs else natDecRepr i.toNat

/-- Python `str(value)` for a generated value. -/
def pyStr : Value → String
  | .vStr s => s
  | .vInt n => intDecRepr n
  | .vNone => "None"

/-- UTF-8 bytes of one character. -/
def utf8Bytes (c : Char) : List Nat :=
  let n := c.toNat
  if n < 128 then [n]
  else if n < 2048 then [192 + n / 64, 128 + n % 64]
  else if n < 65536 then [224 + n / 4096, 128 + n / 64 % 64, 128 + n % 64]
  else [240 + n / 262144, 128 + n / 4096 % 64, 128 + n / 64 % 64, 128 + n % 64]

/-- UTF-8 encoding of a string (`str.encode('utf-8')`). -/
def encodeUTF8 (s : String) : List Nat :=
  s.data.foldr (fun c acc => utf8Bytes c ++ acc) []

/-- Text encoding used by the string branch of the packer.  Only the
default `utf-8` codec is modelled; other codec names fall into the
exception path of the embedding. -/
def encodeWith (enc : String) (s : String) : Option (List Nat) :=
  if enc = "utf-8" then some (encodeUTF8 s) else none

/-- ASCII whitespace skipped by `bytes.fromhex`. -/
def isPyWS (c : Char) : Bool :=
  c == ' ' || c == '\t' || c == '\n' || c == '\x0b' || c == '\x0c' || c == '\r'

/-- Hexadecimal digit test. -/
def isHexDig (c : Char) : Bool :=
  ('0' ≤ c && c ≤ '9') || ('a' ≤ c && c ≤ 'f') || ('A' ≤ c && c ≤ 'F')

/-- Value of a hexadecimal digit. -/
def hexVal (c : Char) : Nat :=
  if '0' ≤ c && c ≤ '9' then c.toNat - 48
  else if 'a' ≤ c && c ≤ 'f' then c.toNat - 87
  else c.toNat - 55

/-- Worker for `fromHex`: skip ASCII whitespace between byte pairs, require
two adjacent hexadecimal digits per byte. -/
def fromHexAux : List Char → Option (List Nat)
  | [] => some []
  | c :: cs =>
    if isPyWS c then fromHexAux cs
    else if isHexDig c then
      match cs with
      | d :: cs' =>
        if isHexDig d then
          (fromHexAux cs').map (fun r => (hexVal c * 16 + hexVal d) :: r)
        else none
      | [] => none
    else none

/-- `bytes.fromhex`: parses a hex string into bytes, `none` on the
`ValueError` cases (odd length, non-hex character). -/
def fromHex (s : String) : Option (List Nat) :=
  fromHexAux s.data

/-- Pack-time errors, one constructor per distinct diagnostic printed by
`_pack_generated_data` before it returns `None`:
`missingValue` for "Field ... not in gen data", `unknownChoiceLabel` for
"Choice key ... not found", `structError` for the `struct` exception path
(bad code, wrong argument type, value out of range), `encodeError` for a
failing text codec, `hexError` for `bytes.fromhex` failures. -/
inductive PackErr where
  | missingValue (field : String)
  | unknownChoiceLabel (field : String)
  | structError (field : String)
  | encodeError (field : String)
  | hexError (field : String)
deriving DecidableEq, Repr

/-- Endianness resolution of the packer
(`'>' if field_def.get("byte_order","big")=='big' else '<'`): the byte
order is big-endian exactly when the attribute, defaulted to `"big"`,
equals `"big"`. -/
def packIsBigEndian (bo : Option String) : Bool :=
  (bo.getD "big") == "big"

/-- Choice-label substitution performed by the packer when the definition
has `type == "choice"` and a dict-valued `values` attribute: the label is
looked up in the mapping, an unmapped (or non-string) label is the
"Choice key ... not found" error. -/
def choiceSubst (name : String) (fd : FieldDef) (v : Value) : Except PackErr Value :=
  if fd.ftype = some "choice" then
    match fd.choiceValues with
    | some (.mapVals m) =>
      match v with
      | .vStr lbl =>
        match m.lookup lbl with
        | some n => .ok (.vInt n)
        | none => .error (.unknownChoiceLabel name)
      | _ => .error (.unknownChoiceLabel name)
    | _ => .ok v
  else .ok v

/-- Encoding of the (possibly substituted) value with `struct.pack` using
the resolved format: only integer codes applied to integer values succeed,
everything else is the `struct` exception path. -/
def packWithCode (name : String) (p : String) (isBig : Bool) (v : Value) :
    Except PackErr (List Nat) :=
  match intCodeOf p with
  | none => .error (.structError name)
  | some c =>
    match v with
    | .vInt n =>
      match packIntCode c isBig n with
      | some bs => .ok bs
      | none => .error (.structError name)
    | _ => .error (.structError name)

/-- Packing of a single field, mirroring the loop body of
`_pack_generated_data`: a (truthy) packer resolves the byte-order
character from the native width of the cleaned code, substitutes choice
labels, and packs a fixed-width primitive; otherwise a `string` field is
text-encoded, a `hex_string` field is hex-decoded, and any other kind is
skipped with no bytes emitted. -/
def packField (name : String) (fd : FieldDef) (v : Value) :
    Except PackErr (List Nat) :=
  match getPacker fd with
  | some p =>
    match calcsizeNative (cleanPacker p) with
    | none => .error (.structError name)
    | some w =>
      match choiceSubst name fd v with
      | .error e => .error e
      | .ok av =>
        packWithCode name p (if w > 1 then packIsBigEndian fd.byte_order else true) av
  | none =>
    if fd.ftype = some "string" then
      match encodeWith (fd.encoding.getD "utf-8") (pyStr v) with
      | some bs => .ok bs
      | none => .error (.encodeError name)
    else if fd.ftype = some "hex_string" then
      match fromHex (pyStr v) with
      | some bs => .ok bs
      | none => .error (.hexError name)
    else .ok []

/-- The field-order walk of `_pack_generated_data`: look up each value by
name (absence aborts with the "not in gen data" error), pack the field,
and append its bytes; the first error aborts the whole payload. -/
def packFields (fds : List (String × FieldDef)) (vals : List (String × Value)) :
    List String → Except PackErr (List Nat)
  | [] => .ok []
  | n :: rest =>
    match vals.lookup n with
    | none => .error (.missingValue n)
    | some v =>
      match packField n ((fds.lookup n).getD FieldDef.empty) v with
      | .error e => .error e
      | .ok bs =>
        match packFields fds vals rest with
        | .error e => .error e
        | .ok bs2 => .ok (bs ++ bs2)

/-- `_pack_generated_data(generated_data, template)`: walk `_field_order`
in order and concatenate the per-field encodings; any error discards all
partial bytes. -/
def packGeneratedData (generated_data : List (String × Value)) (template : Template) :
    Except PackErr (List Nat) :=
  packFields template.fields generated_data template.field_order

/-- `_load_payload_template_logic`: the document must have both top-level
keys and every name in `_field_order` must be defined in `fields`;
no other validation is performed.  On failure no template is retained. -/
def loadPayloadTemplate (doc : TemplateDoc) : Option Template :=
  match doc.field_order, doc.fields with
  | some fo, some fs =>
    if fo.all (fun n => (fs.lookup n).isSome) then some ⟨fo, fs⟩ else none
  | _, _ => none

/-! ### Value generator -/

/-- The support of the random draw performed by
`_generate_value_from_field_def` for one field: the embedding abstracts the
randomness source and records exactly the parameters the code passes to
`random.randint` / `random.uniform` / `random.choice`.  `genNone` is the
"Unknown type" warning path (returns `None`); `genFail` is the exception
path (also returns `None`). -/
inductive GenSpec where
  | intRange (lo hi : Int)
  | floatGen
  | stringFrom (alphabet : String) (len : Nat)
  | hexFrom (numChars : Nat)
  | choiceFrom (vs : List Value)
  | genNone
  | genFail
deriving DecidableEq, Repr

/-- The alphanumeric alphabet of the generator (both the `"alphanumeric"`
and the `"alnum"` entries of `char_options_map` are this string, and it is
also the fallback for unknown charset names). -/
def alnumChars : String :=
  "abcdefghijklmnopqrstuvwxyzABCDEFGHIJKLMNOPQRSTUVWXYZ0123456789"

/-- The printable-ASCII alphabet `"".join(chr(i) for i in range(32, 127))`. -/
def asciiPrintable : String :=
  String.mk ((List.range 95).map (fun i => Char.ofNat (32 + i)))

/-- ASCII lowercasing of one character. -/
def pyLowerChar (c : Char) : Char :=
  if 'A' ≤ c && c ≤ 'Z' then Char.ofNat (c.toNat + 32) else c

/-- Python `str.lower()`, restricted to the ASCII range relevant to
struct packer codes. -/
def pyLower (s : String) : String :=
  String.mk (s.data.map pyLowerChar)

/-- The `char_options_map` dictionary of `_generate_value_from_field_def`. -/
def charOptionsMap (cs : String) : Option String :=
  if cs = "alphanumeric" then some alnumChars
  else if cs = "alnum" then some alnumChars
  else if cs = "hex" then some "0123456789abcdef"
  else if cs = "ascii" then some asciiPrintable
  else none

/-- `_generate_value_from_field_def(field_name, field_def)` (ttn-sim.py),
with the randomness source abstracted to the support of the draw.
Integer fields derive the default `max` from the native width of the
lowercased packer (`2^(8w-1)-1` signed, `2^(8w)` unsigned — note the
unsigned bound has no `-1` in the source), or from the 32-bit range when
the packer is absent; string fields resolve the charset through
`char_options_map` with an alphanumeric fallback; choice fields draw a
label (dict) or an element (list). -/
def generateValueSpec (fd : FieldDef) : GenSpec :=
  match fd.ftype with
  | none => .genNone
  | some t =>
    if t = "int" ∨ t = "uint" then
      let minV := fd.minAttr.getD 0
      let packer := pyLower (fd.packer.getD "")
      if packer = "" then
        .intRange minV (fd.maxAttr.getD (if t = "int" then 2 ^ 31 - 1 else 2 ^ 32 - 1))
      else
        match calcsizeNative packer with
        | some w =>
          let defMax : Int := if t = "int" then 2 ^ (8 * w - 1) - 1 else 2 ^ (8 * w)
          .intRange minV (fd.maxAttr.getD defMax)
        | none => .genFail
    else if t = "float" then .floatGen
    else if t = "string" then
      let len := fd.lengthAttr.getD 1
      let cs := fd.charset.getD "ascii"
      match charOptionsMap cs with
      | some opts => .stringFrom opts len
      | none => .stringFrom alnumChars len
    else if t = "hex_string" then .hexFrom ((fd.length_bytes.getD 1) * 2)
    else if t = "choice" then
      match fd.choiceValues with
      | some (.mapVals m) => .choiceFrom (m.map (fun pr => Value.vStr pr.1))
      | some (.listVals vs) => .choiceFrom vs
      | none => .choiceFrom [Value.vNone]
    else .genNone

/-! ### Decoder-code generator -/

/-- The `PACKER_MAP` of js_decoder_generator.py: struct code to
(DataView method, `struct.calcsize` byte size, returns-BigInt flag).
The sizes are native-mode `calcsize` on 64-bit Linux, so `l`/`L` carry
size 8 while their DataView method reads 32 bits. -/
def PACKER_MAP : List (String × String × Nat × Bool) :=
  [("b", "getInt8", 1, false),
   ("B", "getUint8", 1, false),
   ("h", "getInt16", 2, false),
   ("H", "getUint16", 2, false),
   ("i", "getInt32", 4, false),
   ("I", "getUint32", 4, false),
   ("l", "getInt32", 8, false),
   ("L", "getUint32", 8, false),
   ("q", "getBigInt64", 8, true),
   ("Q", "getBigUint64", 8, true),
   ("f", "getFloat32", 4, false),
   ("d", "getFloat64", 8, false)]

/-- Endianness resolution of the generated decoder
(`is_little_endian = "true" if byte_order == 'little' else "false"`):
the read is little-endian exactly when the attribute, defaulted to
`"big"`, equals `"little"`. -/
def jsLittleEndianFlag (bo : Option String) : Bool :=
  (bo.getD "big") == "little"

/-- Python `str()` of an optional string attribute, as interpolated into
the per-field comment (`None` when absent). -/
def optStrRepr : Option String → String
  | none => "None"
  | some s => s

/-- Decoder-generation errors, one per `ValueError` raised by
`generate_decoder_function`. -/
inductive GenErr where
  | undefinedField (name : String)
  | invalidStringPacker (name : String)
  | unknownPacker (name : String)
  | missingLength (name : String)
  | missingLengthBytes (name : String)
deriving DecidableEq, Repr

/-- The JavaScript source lines emitted for one field by
`generate_decoder_function`, together with the flag recording whether the
field needs the `bytesToString` helper.  Mirrors the loop body: a packer
found in `PACKER_MAP` becomes a DataView read (with `.toString()` appended
for the BigInt methods), an `Ns` packer or a plain `string` field becomes
a `bytesToString` slice, a `hex_string` field is sliced into a
`_bytes`-suffixed key, and any other kind emits only its comment line. -/
def fieldLines (name : String) (fd : FieldDef) :
    Except GenErr (List String × Bool) :=
  let headC := "  // Field: " ++ name ++ ", Type: " ++ optStrRepr fd.ftype
  match getPacker fd with
  | some p =>
    match PACKER_MAP.lookup p with
    | some info =>
      let method := info.1
      let size := info.2.1
      let bigint := info.2.2
      let boStr := fd.byte_order.getD "big"
      let leStr :=
        if size > 1 then
          (if jsLittleEndianFlag fd.byte_order then "true" else "false")
        else "false"
      let sizeC :=
        if size > 1 then "  // " ++ natDecRepr size ++ " bytes, " ++ boStr ++ "-endian"
        else "  // " ++ natDecRepr size ++ " byte"
      let tail := "view." ++ method ++ "(offset, " ++ leStr ++ ")"
      let assign := "  data." ++ name ++ " = " ++
        (if bigint then tail ++ ".toString(); // Converted BigInt to string"
         else tail ++ ";")
      .ok ([headC, sizeC, assign, "  offset += " ++ natDecRepr size ++ ";", ""], false)
    | none =>
      if p.endsWith "s" then
        match (p.dropRight 1).toNat? with
        | some len =>
          .ok ([headC,
                "  // " ++ natDecRepr len ++ " bytes, string",
                "  data." ++ name ++ " = " ++
                  ("bytesToString(input.bytes.slice(offset, offset + " ++
                   natDecRepr len ++ "));"),
                "  offset += " ++ natDecRepr len ++ ";", ""], true)
        | none => .error (.invalidStringPacker name)
      else .error (.unknownPacker name)
  | none =>
    if fd.ftype = some "string" then
      match fd.lengthAttr with
      | some (len + 1) =>
        .ok ([headC,
              "  // " ++ natDecRepr (len + 1) ++ " bytes, string",
              "  data." ++ name ++ " = " ++
                ("bytesToString(input.bytes.slice(offset, offset + " ++
                 natDecRepr (len + 1) ++ "));"),
              "  offset += " ++ natDecRepr (len + 1) ++ ";", ""], true)
      | _ => .error (.missingLength name)
    else if fd.ftype = some "hex_string" then
      match fd.length_bytes with
      | some (lb + 1) =>
        .ok ([headC,
              "  // " ++ natDecRepr (lb + 1) ++ " bytes, hex string",
              "  // Note: Standard JS decoder does not have a simple bytesToHexString. This field will be raw bytes.",
              "  data." ++ (name ++ "_bytes") ++ " = " ++
                ("input.bytes.slice(offset, offset + " ++ natDecRepr (lb + 1) ++ ");"),
              "  offset += " ++ natDecRepr (lb + 1) ++ ";", ""], false)
      | _ => .error (.missingLengthBytes name)
    else
      .ok ([headC, ""], false)

/-- Walk of `_field_order` by the decoder generator: every name must be
defined, each field contributes its lines, and the helper-needed flags are
OR-ed together. -/
def generateBody (fds : List (String × FieldDef)) :
    List String → Except GenErr (List (List String) × Bool)
  | [] => .ok ([], false)
  | n :: rest =>
    match fds.lookup n with
    | none => .error (.undefinedField n)
    | some fd =>
      match fieldLines n fd with
      | .error e => .error e
      | .ok pr =>
        match generateBody fds rest with
        | .error e => .error e
        | .ok prs => .ok (pr.1 :: prs.1, pr.2 || prs.2)

/-- The fixed prologue of the generated `decodeUplink` function. -/
def headerLines : List String :=
  ["function decodeUplink(input) \x7b",
   "  // Decodes a binary payload into a structured object.",
   "  // Generated from template by Python script.",
   "",
   "  var data = \x7b\x7d;",
   "  var offset = 0;",
   "  var buffer = Uint8Array.from(input.bytes).buffer;",
   "  var view = new DataView(buffer);",
   ""]

/-- The fixed epilogue of the generated function: the three-key return
record with empty `warnings` and `errors` arrays. -/
def returnBlock : List String :=
  ["  return \x7b",
   "    data: data,",
   "    warnings: [],",
   "    errors: []",
   "  \x7d;",
   "\x7d"]

/-- The `bytesToString` helper, prepended exactly once when some field
needs it. -/
def helperLines : List String :=
  ["// Helper function to decode a byte array to a UTF-8 string.",
   "function bytesToString(bytes) \x7b",
   "  var result = \"\";",
   "  for (var i = 0; i < bytes.length; i++) \x7b",
   "    result += String.fromCharCode(bytes[i]);",
   "  \x7d",
   "  return result;",
   "\x7d",
   ""]

/-- `generate_decoder_function` (js_decoder_generator.py) as the list of
emitted JavaScript source lines (file I/O aside): header, per-field lines
in field order, the fixed return block, and the `bytesToString` helper
prepended when some string field needs it. -/
def generateDecoderFunction (template : Template) : Except GenErr (List String) :=
  match generateBody template.fields template.field_order with
  | .error e => .error e
  | .ok pr =>
    let body := headerLines ++ pr.1.flatten ++ returnBlock
    .ok (if pr.2 then helperLines ++ body else body)

/-! ### Denotation of the generated JavaScript decoder -/

/-- JavaScript values produced by the generated decoder: numbers, strings
(BigInt reads are converted with `.toString()`), and raw byte arrays from
`input.bytes.slice`. -/
inductive JSValue where
  | jnum (n : Int)
  | jstr (s : String)
  | jbytes (bs : List Nat)
deriving DecidableEq, Repr

/-- The three-key record returned by the generated decoder. -/
structure DecodeResult where
  data : List (String × JSValue)
  warnings : List String
  errors : List String
deriving DecidableEq, Repr

/-- DataView methods that sign-extend. -/
def isSignedMethod (m : String) : Bool :=
  m == "getInt8" || m == "getInt16" || m == "getInt32" || m == "getBigInt64"

/-- Big-endian natural number of a byte list. -/
def natOfBE (chunk : List Nat) : Nat :=
  chunk.foldl (fun a b => a * 256 + b) 0

/-- A bounds-checked read of `w` bytes at `off` (DataView throws a
RangeError past the end of the buffer). -/
def readBytes (bs : List Nat) (off w : Nat) : Option (List Nat) :=
  if off + w ≤ bs.length then some ((bs.drop off).take w) else none

/-- Two's-complement reading of `m` as a signed `8*w`-bit integer. -/
def toSignedInt (m w : Nat) : Int :=
  if m < 2 ^ (8 * w - 1) then (m : Int) else (m : Int) - 2 ^ (8 * w)

/-- Denotation of the statements `generate_decoder_function` emits for one
field, on a byte list whose entries are below 256: DataView reads for the
integer methods (floats are not modelled), clamped `slice` for string and
hex fields, no statement for unrecognized kinds.  Returns the
(key, value) entries added to `data` and the new offset. -/
def decodeFieldSem (name : String) (fd : FieldDef) (bytes : List Nat) (off : Nat) :
    Option (List (String × JSValue) × Nat) :=
  match getPacker fd with
  | some p =>
    match PACKER_MAP.lookup p with
    | some info =>
      let method := info.1
      let size := info.2.1
      let bigint := info.2.2
      if method = "getFloat32" ∨ method = "getFloat64" then none
      else
        let useLE := if size > 1 then jsLittleEndianFlag fd.byte_order else false
        match readBytes bytes off size with
        | none => none
        | some chunk =>
          let m := natOfBE (if useLE then chunk.reverse else chunk)
          let v : Int := if isSignedMethod method then toSignedInt m size else (m : Int)
          some ([(name, if bigint then .jstr (intDecRepr v) else .jnum v)], off + size)
    | none =>
      if p.endsWith "s" then
        match (p.dropRight 1).toNat? with
        | some len =>
          some ([(name, .jstr (String.mk (((bytes.drop off).take len).map Char.ofNat)))],
                off + len)
        | none => none
      else none
  | none =>
    if fd.ftype = some "string" then
      match fd.lengthAttr with
      | some (len + 1) =>
        some ([(name, .jstr (String.mk (((bytes.drop off).take (len + 1)).map Char.ofNat)))],
              off + (len + 1))
      | _ => none
    else if fd.ftype = some "hex_string" then
      match fd.length_bytes with
      | some (lb + 1) =>
        some ([(name ++ "_bytes", .jbytes ((bytes.drop off).take (lb + 1)))],
              off + (lb + 1))
      | _ => none
    else some ([], off)

/-- Sequential execution of the generated per-field statements. -/
def decodeFieldsSem (fds : List (String × FieldDef)) (bytes : List Nat) :
    List String → Nat → Option (List (String × JSValue))
  | [], _ => some []
  | n :: rest, off =>
    match fds.lookup n with
    | none => none
    | some fd =>
      match decodeFieldSem n fd bytes off with
      | none => none
      | some pr => (decodeFieldsSem fds bytes rest pr.2).map (fun r => pr.1 ++ r)

/-- Denotation of the whole generated `decodeUplink` function: the decoded
field mapping together with the fixed empty `warnings` and `errors`
collections. -/
def decodeUplinkSem (template : Template) (bytes : List Nat) : Option DecodeResult :=
  (decodeFieldsSem template.fields bytes template.field_order 0).map
    (fun d => ⟨d, [], []⟩)

/-! ### Definitions used to state the claims -/

/-- The per-field byte contribution relation: field `n` of the template
packs, from its value in the value set, exactly the byte chunk `chunk`. -/
def packsTo (fds : List (String × FieldDef)) (vals : List (String × Value))
    (n : String) (chunk : List Nat) : Prop :=
  ∃ v, vals.lookup n = some v ∧
    packField n ((fds.lookup n).getD FieldDef.empty) v = .ok chunk

/-- Stated from the claim wording, for comparison with the packer: the
"resolved primitive width" of a packCode field, the "declared length" of a
string field, the declared byte count of a hex field. -/
def specFieldWidth (fd : FieldDef) : Option Nat :=
  match getPacker fd with
  | some p => (intCodeOf p).map stdWidth
  | none =>
    if fd.ftype = some "string" then fd.lengthAttr
    else if fd.ftype = some "hex_string" then fd.length_bytes
    else none

/-- Sum of the claimed per-field widths over a field-name list. -/
def specWidthSum (fds : List (String × FieldDef)) : List String → Option Nat
  | [] => some 0
  | n :: rest =>
    match specFieldWidth ((fds.lookup n).getD FieldDef.empty), specWidthSum fds rest with
    | some w, some s => some (w + s)
    | _, _ => none

/-- Stated from the claim wording: the total byte length the claim
predicts for a packed payload — the sum, in field order, of each field's
resolved primitive width or declared length. -/
def specTotalWidth (tpl : Template) : Option Nat :=
  specWidthSum tpl.fields tpl.field_order

/-- A value is conformant for its field when the sizes the schema declares
match what packing actually emits: primitive fields are always conformant
(their width is forced by the code), a string value must encode to exactly
the declared `length` bytes, a hex value must parse to exactly the
declared `lengthBytes` bytes, and unrecognized kinds are never
conformant. -/
def FieldConformant (fd : FieldDef) (v : Value) : Prop :=
  match getPacker fd with
  | some _ => True
  | none =>
    if fd.ftype = some "string" then
      fd.lengthAttr = some (encodeUTF8 (pyStr v)).length
    else if fd.ftype = some "hex_string" then
      ∃ bs, fromHex (pyStr v) = some bs ∧ fd.length_bytes = some bs.length
    else False

/-- Every field of the template has a conformant value in the value set. -/
def Conformant (tpl : Template) (vals : List (String × Value)) : Prop :=
  ∀ n ∈ tpl.field_order, ∀ v, vals.lookup n = some v →
    FieldConformant ((tpl.fields.lookup n).getD FieldDef.empty) v

/-- The key under which the generated decoder assigns a field's decoded
value into `data`: the field's own name for recognized packCode and string
fields, the name suffixed with `_bytes` for hex fields, and no key at all
for unrecognized kinds. -/
def assignKey (name : String) (fd : FieldDef) : Option String :=
  match getPacker fd with
  | some p =>
    match PACKER_MAP.lookup p with
    | some _ => some name
    | none =>
      if p.endsWith "s" then ((p.dropRight 1).toNat?).map (fun _ => name) else none
  | none =>
    if fd.ftype = some "string" then
      match fd.lengthAttr with
      | some (_ + 1) => some name
      | _ => none
    else if fd.ftype = some "hex_string" then
      match fd.length_bytes with
      | some (_ + 1) => some (name ++ "_bytes")
      | _ => none
    else none

/-- Wire byte order. -/
inductive Endian where
  | big
  | little
deriving DecidableEq, Repr

/-- The byte order the packer resolves from the `byte_order` attribute. -/
def packerEndian (bo : Option String) : Endian :=
  if packIsBigEndian bo then .big else .little

/-- The byte order the generated decoder resolves from the same
attribute. -/
def decoderEndian (bo : Option String) : Endian :=
  if jsLittleEndianFlag bo then .little else .big

/-! ### Concrete fixtures -/

/-- An unsigned byte field (packer `B`). -/
def fdUintB : FieldDef := mkFD (some "uint") (some "B") none none none none none

/-- A signed byte field (packer `B`, type `int`). -/
def fdIntB : FieldDef := mkFD (some "int") (some "B") none none none none none

/-- An unsigned field without a packer. -/
def fdUintNoPk : FieldDef := mkFD (some "uint") none none none none none none

/-- A signed field without a packer. -/
def fdIntNoPk : FieldDef := mkFD (some "int") none none none none none none

/-- A signed 16-bit field (packer `h`). -/
def fdIntH : FieldDef := mkFD (some "int") (some "h") none none none none none

/-- The end-to-end example template of the specification:
`id` unsigned 8-bit, `temp` signed 16-bit big-endian. -/
def tplEx : Template := ⟨["id", "temp"], [("id", fdUintB), ("temp", fdIntH)]⟩

/-- The example value set `id = 5`, `temp = -10`. -/
def valsEx : List (String × Value) := [("id", .vInt 5), ("temp", .vInt (-10))]

/-- A single string field declaring length 4. -/
def tplStr4 : Template :=
  ⟨["s"], [("s", mkFD (some "string") none none (some 4) none none none)]⟩

/-- A six-character value for the length-4 string field. -/
def valsStr6 : List (String × Value) := [("s", .vStr "abcdef")]

/-- A single unsigned 16-bit field with the given byte order. -/
def tplH (bo : Option String) : Template :=
  ⟨["x"], [("x", mkFD (some "uint") (some "H") bo none none none none)]⟩

/-- An unsigned byte field with the given byte order. -/
def fdB (bo : Option String) : FieldDef :=
  mkFD (some "uint") (some "B") bo none none none none

/-- Two unsigned byte fields `a`, `b`. -/
def tplC5 : Template := ⟨["a", "b"], [("a", fdUintB), ("b", fdUintB)]⟩

/-- A value set giving `a` the out-of-range value 256 and omitting `b`. -/
def valsC5 : List (String × Value) := [("a", .vInt 256)]

/-- A single-field template used for the missing-value witness. -/
def tplW : Template := ⟨["a"], [("a", fdUintB)]⟩

/-- A mapping-backed choice field with no packer. -/
def fdChoiceNoPacker : FieldDef :=
  mkFD (some "choice") none none none none none (some (.mapVals [("x", 1)]))

/-- A template holding only the packer-less choice field. -/
def tplC6 : Template := ⟨["c"], [("c", fdChoiceNoPacker)]⟩

/-- A value set choosing the unmapped label `y`. -/
def valsC6 : List (String × Value) := [("c", .vStr "y")]

/-- A mapping-backed choice field packed as an unsigned byte. -/
def fdChoiceB : FieldDef :=
  mkFD (some "choice") (some "B") none none none none (some (.mapVals [("on", 1)]))

/-- A string field definition with no packer and no declared length. -/
def fdStrNoLen : FieldDef := mkFD (some "string") none none none none none none

/-- A document whose only field is a length-less string definition. -/
def docC8 : TemplateDoc := ⟨some ["s"], some [("s", fdStrNoLen)]⟩

/-- A document with no `_field_order` key. -/
def docNoOrder : TemplateDoc := ⟨none, some []⟩

/-- A single hex field `id` of two bytes. -/
def tplHex : Template :=
  ⟨["id"], [("id", mkFD (some "hex_string") none none none (some 2) none none)]⟩

/-- An unsigned 64-bit field (packer `q`). -/
def fdQ : FieldDef := mkFD (some "uint") (some "q") none none none none none

/-- A template holding only the 64-bit field `x`. -/
def tplQ : Template := ⟨["x"], [("x", fdQ)]⟩

/-- The big-endian 8-byte encoding of `9223372036854775807`. -/
def qBytes : List Nat := [127, 255, 255, 255, 255, 255, 255, 255]

/-- The source lines the decoder generator emits for the field `x` of
`tplQ`. -/
def chunkQ : List String :=
  ["  // Field: x, Type: uint",
   "  // 8 bytes, big-endian",
   "  data.x = view.getBigInt64(offset, false).toString(); // Converted BigInt to string",
   "  offset += 8;",
   ""]

/-- The complete decoder source generated for `tplQ`. -/
def tplQLines : List String := headerLines ++ chunkQ ++ returnBlock

/-- The complete decoder source generated for `tplHex`. -/
def tplHexLines : List String :=
  headerLines ++
  ["  // Field: id, Type: hex_string",
   "  // 2 bytes, hex string",
   "  // Note: Standard JS decoder does not have a simple bytesToHexString. This field will be raw bytes.",
   "  data.id_bytes = input.bytes.slice(offset, offset + 2);",
   "  offset += 2;",
   ""] ++ returnBlock

/-- A string field with an unknown charset name. -/
def fdStrWeird : FieldDef :=
  mkFD (some "string") none none (some 5) none (some "base64") none

/-! ### Helper lemmas about the packer -/

theorem leBytes_length (m w : Nat) : (leBytes m w).length = w := by
  simp [leBytes]

theorem packIntCode_length {c : IntCode} {b : Bool} {v : Int} {bs : List Nat}
    (h : packIntCode c b v = some bs) : bs.length = stdWidth c := by
  unfold packIntCode at h
  split at h
  · injection h with h'
    subst h'
    split <;> simp [leBytes]
  · cases h

theorem packWithCode_ok {name p : String} {isBig : Bool} {v : Value} {bs : List Nat}
    (h : packWithCode name p isBig v = .ok bs) :
    ∃ c n, intCodeOf p = some c ∧ v = .vInt n ∧ packIntCode c isBig n = some bs := by
  unfold packWithCode at h
  cases hic : intCodeOf p with
  | none =>
    rw [hic] at h
    simp at h
  | some c =>
    rw [hic] at h
    simp only [] at h
    cases v with
    | vInt n =>
      simp only [] at h
      cases hpk : packIntCode c isBig n with
      | none => rw [hpk] at h; simp at h
      | some bs' =>
        rw [hpk] at h
        simp only [] at h
        injection h with h'
        subst h'
        exact ⟨c, n, rfl, rfl, hpk⟩
    | vStr s => simp at h
    | vNone => simp at h

theorem packField_packer_eq (name : String) (fd : FieldDef) (v : Value) {p : String}
    (hp : getPacker fd = some p) :
    packField name fd v =
      match calcsizeNative (cleanPacker p) with
      | none => .error (.structError name)
      | some w =>
        match choiceSubst name fd v with
        | .error e => .error e
        | .ok av =>
          packWithCode name p (if w > 1 then packIsBigEndian fd.byte_order else true) av := by
  unfold packField
  rw [hp]

theorem packField_packer_length {name : String} {fd : FieldDef} {p : String}
    {v : Value} {bs : List Nat}
    (hp : getPacker fd = some p) (h : packField name fd v = .ok bs) :
    ∃ c, intCodeOf p = some c ∧ bs.length = stdWidth c := by
  rw [packField_packer_eq name fd v hp] at h
  cases hcs : calcsizeNative (cleanPacker p) with
  | none => rw [hcs] at h; simp at h
  | some w =>
    rw [hcs] at h
    simp only [] at h
    cases hsub : choiceSubst name fd v with
    | error e => rw [hsub] at h; simp at h
    | ok av =>
      rw [hsub] at h
      simp only [] at h
      obtain ⟨c, n, hc, _, hpk⟩ := packWithCode_ok h
      exact ⟨c, hc, packIntCode_length hpk⟩

theorem encodeWith_eq_some {enc s : String} {bs : List Nat}
    (h : encodeWith enc s = some bs) : bs = encodeUTF8 s := by
  unfold encodeWith at h
  by_cases he : enc = "utf-8"
  · rw [if_pos he] at h
    injection h with h'
    exact h'.symm
  · rw [if_neg he] at h
    cases h

theorem packField_nopacker_eq (name : String) (fd : FieldDef) (v : Value)
    (hp : getPacker fd = none) :
    packField name fd v =
      if fd.ftype = some "string" then
        match encodeWith (fd.encoding.getD "utf-8") (pyStr v) with
        | some bs => .ok bs
        | none => .error (.encodeError name)
      else if fd.ftype = some "hex_string" then
        match fromHex (pyStr v) with
        | some bs => .ok bs
        | none => .error (.hexError name)
      else .ok [] := by
  unfold packField
  rw [hp]

theorem packField_string_bytes {name : String} {fd : FieldDef} {v : Value} {bs : List Nat}
    (hp : getPacker fd = none) (ht : fd.ftype = some "string")
    (h : packField name fd v = .ok bs) : bs = encodeUTF8 (pyStr v) := by
  rw [packField_nopacker_eq name fd v hp, if_pos ht] at h
  cases he : encodeWith (fd.encoding.getD "utf-8") (pyStr v) with
  | none => rw [he] at h; simp at h
  | some bs' =>
    rw [he] at h
    simp only [] at h
    injection h with h'
    subst h'
    exact encodeWith_eq_some he

theorem packField_hex_bytes {name : String} {fd : FieldDef} {v : Value} {bs : List Nat}
    (hp : getPacker fd = none) (ht : fd.ftype ≠ some "string")
    (hh : fd.ftype = some "hex_string")
    (h : packField name fd v = .ok bs) : fromHex (pyStr v) = some bs := by
  rw [packField_nopacker_eq name fd v hp, if_neg ht, if_pos hh] at h
  cases hf : fromHex (pyStr v) with
  | none => rw [hf] at h; simp at h
  | some bs' =>
    rw [hf] at h
    simp only [] at h
    injection h with h'
    subst h'
    rfl

theorem packField_conformant_width {name : String} {fd : FieldDef} {v : Value}
    {bs : List Nat} (h : packField name fd v = .ok bs) (hc : FieldConformant fd v) :
    specFieldWidth fd = some bs.length := by
  unfold FieldConformant at hc
  cases hgp : getPacker fd with
  | some p =>
    obtain ⟨c, hic, hlen⟩ := packField_packer_length hgp h
    simp [specFieldWidth, hgp, hic, hlen]
  | none =>
    rw [hgp] at hc
    by_cases hs : fd.ftype = some "string"
    · rw [if_pos hs] at hc
      have hb := packField_string_bytes hgp hs h
      simp [specFieldWidth, hgp, if_pos hs, hc, hb]
    · by_cases hx : fd.ftype = some "hex_string"
      · rw [if_neg hs, if_pos hx] at hc
        obtain ⟨bs', hfh, hlb⟩ := hc
        have hb := packField_hex_bytes hgp hs hx h
        rw [hfh] at hb
        injection hb with hb'
        subst hb'
        simp [specFieldWidth, hgp, if_neg hs, if_pos hx, hlb]
      · rw [if_neg hs, if_neg hx] at hc
        exact absurd hc (by simp)

theorem packFields_cons_ok {fds : List (String × FieldDef)}
    {vals : List (String × Value)} {n : String} {rest : List String} {bs : List Nat}
    (h : packFields fds vals (n :: rest) = .ok bs) :
    ∃ v bs1 bs2, vals.lookup n = some v ∧
      packField n ((fds.lookup n).getD FieldDef.empty) v = .ok bs1 ∧
      packFields fds vals rest = .ok bs2 ∧ bs = bs1 ++ bs2 := by
  unfold packFields at h
  cases hv : vals.lookup n with
  | none => rw [hv] at h; simp at h
  | some v =>
    rw [hv] at h
    simp only [] at h
    cases hp : packField n ((fds.lookup n).getD FieldDef.empty) v with
    | error e => rw [hp] at h; simp at h
    | ok bs1 =>
      rw [hp] at h
      simp only [] at h
      cases hr : packFields fds vals rest with
      | error e => rw [hr] at h; simp at h
      | ok bs2 =>
        rw [hr] at h
        simp only [] at h
        injection h with h'
        exact ⟨v, bs1, bs2, rfl, hp, rfl, h'.symm⟩

theorem packFields_ok_structure (fds : List (String × FieldDef))
    (vals : List (String × Value)) :
    ∀ (order : List String) (bs : List Nat),
    packFields fds vals order = .ok bs →
    ∃ chunks, List.Forall₂ (packsTo fds vals) order chunks ∧ bs = chunks.flatten := by
  intro order
  induction order with
  | nil =>
    intro bs h
    injection h with h'
    exact ⟨[], List.Forall₂.nil, h'.symm⟩
  | cons n rest ih =>
    intro bs h
    obtain ⟨v, bs1, bs2, hv, hp, hr, hbs⟩ := packFields_cons_ok h
    obtain ⟨chunks, hf, hflat⟩ := ih bs2 hr
    exact ⟨bs1 :: chunks, List.Forall₂.cons ⟨v, hv, hp⟩ hf, by simp [hbs, hflat]⟩

theorem packFields_ok_lookup (fds : List (String × FieldDef))
    (vals : List (String × Value)) :
    ∀ (order : List String) (bs : List Nat),
    packFields fds vals order = .ok bs →
    ∀ n ∈ order, ∃ v, vals.lookup n = some v := by
  intro order
  induction order with
  | nil => intro bs _ n hn; cases hn
  | cons m rest ih =>
    intro bs h n hn
    obtain ⟨v, bs1, bs2, hv, _, hr, _⟩ := packFields_cons_ok h
    cases hn with
    | head => exact ⟨v, hv⟩
    | tail _ hm => exact ih bs2 hr n hm

theorem packFields_prefix_missing (fds : List (String × FieldDef))
    (vals : List (String × Value)) :
    ∀ (pre : List String) (name : String) (rest : List String),
    vals.lookup name = none →
    (∀ n ∈ pre, ∃ v bs, vals.lookup n = some v ∧
       packField n ((fds.lookup n).getD FieldDef.empty) v = .ok bs) →
    packFields fds vals (pre ++ name :: rest) = .error (.missingValue name) := by
  intro pre
  induction pre with
  | nil =>
    intro name rest hmiss _
    simp only [List.nil_append]
    unfold packFields
    rw [hmiss]
  | cons m ms ih =>
    intro name rest hmiss hpre
    obtain ⟨v, bs, hv, hbs⟩ := hpre m (List.mem_cons_self m ms)
    have hrec := ih name rest hmiss (fun n hn => hpre n (List.mem_cons_of_mem m hn))
    simp only [List.cons_append]
    unfold packFields
    rw [hv]
    simp only []
    rw [hbs]
    simp only []
    rw [hrec]

theorem forall2_mem_left {α β : Type} {R : α → β → Prop} :
    ∀ {l₁ : List α} {l₂ : List β}, List.Forall₂ R l₁ l₂ →
    ∀ a ∈ l₁, ∃ b, R a b := by
  intro l₁ l₂ h
  induction h with
  | nil => intro a ha; cases ha
  | cons hr _ ih =>
    intro a ha
    cases ha with
    | head => exact ⟨_, hr⟩
    | tail _ hm => exact ih _ hm

theorem specWidthSum_of_conformant (fds : List (String × FieldDef))
    (vals : List (String × Value)) :
    ∀ (order : List String) (chunks : List (List Nat)),
    List.Forall₂ (packsTo fds vals) order chunks →
    (∀ n ∈ order, ∀ v, vals.lookup n = some v →
       FieldConformant ((fds.lookup n).getD FieldDef.empty) v) →
    specWidthSum fds order = some chunks.flatten.length := by
  intro order chunks hf
  induction hf with
  | nil => intro _; rfl
  | @cons n chunk rest chunks' hr _ ih =>
    intro hc
    obtain ⟨v, hv, hok⟩ := hr
    have hw := packField_conformant_width hok
      (hc n (List.mem_cons_self n rest) v hv)
    have hs := ih (fun m hm v' hv' => hc m (List.mem_cons_of_mem n hm) v' hv')
    unfold specWidthSum
    rw [hw, hs]
    simp

/-! ### Helper lemmas about the decoder generator -/

theorem generateBody_cons_ok {fds : List (String × FieldDef)} {m : String}
    {rest : List String} {chunks : List (List String)} {flag : Bool}
    (h : generateBody fds (m :: rest) = .ok (chunks, flag)) :
    ∃ fd pr prs, fds.lookup m = some fd ∧ fieldLines m fd = .ok pr ∧
      generateBody fds rest = .ok prs ∧
      chunks = pr.1 :: prs.1 ∧ flag = (pr.2 || prs.2) := by
  unfold generateBody at h
  cases hl : fds.lookup m with
  | none => rw [hl] at h; simp at h
  | some fd0 =>
    rw [hl] at h
    simp only [] at h
    cases hfl : fieldLines m fd0 with
    | error e => rw [hfl] at h; simp at h
    | ok pr =>
      rw [hfl] at h
      simp only [] at h
      cases hgb : generateBody fds rest with
      | error e => rw [hgb] at h; simp at h
      | ok prs =>
        rw [hgb] at h
        simp only [] at h
        injection h with h'
        injection h' with h1 h2
        subst h1
        subst h2
        exact ⟨fd0, pr, prs, rfl, hfl, rfl, rfl, rfl⟩

theorem generateBody_mem (fds : List (String × FieldDef)) :
    ∀ (order : List String) (chunks : List (List String)) (flag : Bool),
    generateBody fds order = .ok (chunks, flag) →
    ∀ n ∈ order, ∀ fd, fds.lookup n = some fd →
      ∃ chunk b, fieldLines n fd = .ok (chunk, b) ∧ chunk ∈ chunks := by
  intro order
  induction order with
  | nil => intro chunks flag _ n hn; cases hn
  | cons m rest ih =>
    intro chunks flag h n hn fd hfd
    obtain ⟨fd0, pr, prs, hl, hfl, hgb, hc, _⟩ := generateBody_cons_ok h
    subst hc
    cases hn with
    | head =>
      injection (hfd.symm.trans hl) with hfd'
      subst hfd'
      exact ⟨pr.1, pr.2, hfl, List.mem_cons_self _ _⟩
    | tail _ hm =>
      obtain ⟨chunk, b, hfl', hmem⟩ := ih prs.1 prs.2 hgb n hm fd hfd
      exact ⟨chunk, b, hfl', List.mem_cons_of_mem _ hmem⟩

theorem fieldLines_assign {name : String} {fd : FieldDef} {chunk : List String}
    {b : Bool} (h : fieldLines name fd = .ok (chunk, b)) {key : String}
    (hk : assignKey name fd = some key) :
    ∃ rest, ("  data." ++ key ++ " = " ++ rest) ∈ chunk := by
  unfold fieldLines at h
  unfold assignKey at hk
  cases hgp : getPacker fd with
  | some p =>
    rw [hgp] at h hk
    simp only [] at h hk
    cases hpm : PACKER_MAP.lookup p with
    | some info =>
      rw [hpm] at h hk
      simp only [] at h hk
      injection hk with hk'
      subst hk'
      injection h with h'
      injection h' with h1 h2
      subst h1
      exact ⟨_, List.Mem.tail _ (List.Mem.tail _ (List.Mem.head _))⟩
    | none =>
      rw [hpm] at h hk
      simp only [] at h hk
      cases hps : p.endsWith "s" with
      | false => rw [hps] at hk; simp at hk
      | true =>
        rw [hps] at h hk
        simp only [if_true] at h hk
        cases htn : (p.dropRight 1).toNat? with
        | none => rw [htn] at hk; simp at hk
        | some len =>
          rw [htn] at h hk
          simp at hk
          subst hk
          simp only [] at h
          injection h with h'
          injection h' with h1 h2
          subst h1
          exact ⟨_, List.Mem.tail _ (List.Mem.tail _ (List.Mem.head _))⟩
  | none =>
    rw [hgp] at h hk
    simp only [] at h hk
    by_cases hst : fd.ftype = some "string"
    · rw [if_pos hst] at h hk
      cases hla : fd.lengthAttr with
      | none => rw [hla] at h hk; simp at hk
      | some k =>
        rw [hla] at h hk
        cases k with
        | zero => simp at hk
        | succ len =>
          simp only [] at h hk
          injection hk with hk'
          subst hk'
          injection h with h'
          injection h' with h1 h2
          subst h1
          exact ⟨_, List.Mem.tail _ (List.Mem.tail _ (List.Mem.head _))⟩
    · rw [if_neg hst] at h hk
      by_cases hhx : fd.ftype = some "hex_string"
      · rw [if_pos hhx] at h hk
        cases hlb : fd.length_bytes with
        | none => rw [hlb] at h hk; simp at hk
        | some k =>
          rw [hlb] at h hk
          cases k with
          | zero => simp at hk
          | succ lb =>
            simp only [] at h hk
            injection hk with hk'
            subst hk'
            injection h with h'
            injection h' with h1 h2
            subst h1
            exact ⟨_, List.Mem.tail _ (List.Mem.tail _ (List.Mem.tail _ (List.Mem.head _)))⟩
      · rw [if_neg hhx] at hk
        cases hk

theorem assign_line_not_mem {key : String} {lines : List String}
    (hall : lines.all
      (fun l => !(("  data." ++ key ++ " = ").data.isPrefixOf l.data)) = true) :
    ¬ ∃ rest, ("  data." ++ key ++ " = " ++ rest) ∈ lines := by
  rintro ⟨rest, hmem⟩
  rw [List.all_eq_true] at hall
  have hl := hall _ hmem
  rw [Bool.not_eq_eq_eq_not, Bool.not_true] at hl
  apply absurd hl
  rw [Bool.not_eq_false]
  have : ("  data." ++ key ++ " = " ++ rest).data =
      ("  data." ++ key ++ " = ").data ++ rest.data := by
    simp [String.data_append]
  rw [this]
  exact List.isPrefixOf_iff_prefix.mpr (List.prefix_append _ _)

/-! ### Claim theorems -/

/-- C1 (amended): for every schema and value set for which packing
succeeds, the packed payload is the concatenation, strictly in field
order, of each field's encoding — no padding, length prefixes, or
checksums — and, provided every string/hex value actually has its
declared size and no field is of an unrecognized kind (`Conformant`),
the total byte length equals the sum, in field order, of each field's
resolved primitive width or declared length.  (Unamended, the length
clause is false: the packer emits a string field's actual encoded bytes
even when they differ from the declared `length` — see `C1_cex`.) -/
theorem C1_pack_layout (tpl : Template) (vals : List (String × Value))
    (bs : List Nat) (h : packGeneratedData vals tpl = .ok bs) :
    (∃ chunks, List.Forall₂ (packsTo tpl.fields vals) tpl.field_order chunks ∧
       bs = chunks.flatten) ∧
    (Conformant tpl vals → specTotalWidth tpl = some bs.length) := by
  obtain ⟨chunks, hf, hflat⟩ :=
    packFields_ok_structure tpl.fields vals tpl.field_order bs h
  refine ⟨⟨chunks, hf, hflat⟩, fun hc => ?_⟩
  rw [hflat]
  exact specWidthSum_of_conformant tpl.fields vals tpl.field_order chunks hf hc

/-- C1 witness: the specification's end-to-end example — packing
`{id: 5, temp: -10}` against `id` unsigned 8-bit / `temp` signed 16-bit
big-endian yields the three bytes `05 FF F6`, which decompose per field
and sum to the claimed total. -/
theorem C1_pack_layout_witness :
    (∃ chunks, List.Forall₂ (packsTo tplEx.fields valsEx) tplEx.field_order chunks ∧
       [5, 255, 246] = chunks.flatten) ∧
    (Conformant tplEx valsEx → specTotalWidth tplEx = some ([5, 255, 246] : List Nat).length) :=
  C1_pack_layout tplEx valsEx [5, 255, 246] rfl

/-- C1 counterexample: a string field declaring `length` 4 packs a
six-character value to 6 bytes, so packing succeeds while the total
byte length differs from the declared sum. -/
theorem C1_cex :
    packGeneratedData valsStr6 tplStr4 = .ok [97, 98, 99, 100, 101, 102] ∧
    specTotalWidth tplStr4 = some 4 ∧
    ([97, 98, 99, 100, 101, 102] : List Nat).length = 6 := by
  refine ⟨rfl, rfl, rfl⟩

/-- C2: a 2-byte packCode (`H`) with value 1 packs as `01 00` under byte
order `little` and as `00 01` under byte order `big` or with the
attribute absent (the default is big); for a width-1 packCode (`B`) the
byte-order attribute has no effect on the packed bytes. -/
theorem C2_endianness :
    packGeneratedData [("x", .vInt 1)] (tplH (some "little")) = .ok [1, 0] ∧
    packGeneratedData [("x", .vInt 1)] (tplH (some "big")) = .ok [0, 1] ∧
    packGeneratedData [("x", .vInt 1)] (tplH none) = .ok [0, 1] ∧
    ∀ (bo : Option String) (name : String) (v : Value),
      packField name (fdB bo) v = packField name (fdB none) v := by
  refine ⟨rfl, rfl, rfl, fun bo name v => rfl⟩

/-- C5 (amended): a value set missing some field named in field order
never packs to a payload; and when every field before the missing one
packs successfully, the error is precisely `MissingValue` naming that
field.  (Unamended, the claim is false: an earlier field can fail first
with a different error — see `C5_cex`.) -/
theorem C5_missing_value (tpl : Template) (vals : List (String × Value)) :
    ((∃ n ∈ tpl.field_order, vals.lookup n = none) →
       ∃ e, packGeneratedData vals tpl = .error e) ∧
    (∀ (pre : List String) (name : String) (rest : List String),
       tpl.field_order = pre ++ name :: rest →
       vals.lookup name = none →
       (∀ n ∈ pre, ∃ v bs, vals.lookup n = some v ∧
          packField n ((tpl.fields.lookup n).getD FieldDef.empty) v = .ok bs) →
       packGeneratedData vals tpl = .error (.missingValue name)) := by
  constructor
  · rintro ⟨n, hn, hmiss⟩
    cases h : packGeneratedData vals tpl with
    | error e => exact ⟨e, rfl⟩
    | ok bs =>
      obtain ⟨v, hv⟩ := packFields_ok_lookup tpl.fields vals tpl.field_order bs h n hn
      rw [hmiss] at hv
      cases hv
  · intro pre name rest horder hmiss hpre
    unfold packGeneratedData
    rw [horder]
    exact packFields_prefix_missing tpl.fields vals pre name rest hmiss hpre

/-- C5 witness: a single-field template packed against an empty value set
fails with `MissingValue` naming the field. -/
theorem C5_missing_value_witness :
    packGeneratedData [] tplW = .error (.missingValue "a") :=
  (C5_missing_value tplW []).2 [] "a" [] rfl rfl (fun _ hn => nomatch hn)

/-- C5 counterexample: with field order `[a, b]`, `b` missing from the
value set and `a` holding the out-of-range value 256, packing fails with
the range error on `a`, not with `MissingValue` naming `b`. -/
theorem C5_cex :
    "b" ∈ tplC5.field_order ∧
    valsC5.lookup "b" = none ∧
    packGeneratedData valsC5 tplC5 = .error (.structError "a") ∧
    packGeneratedData valsC5 tplC5 ≠ .error (.missingValue "b") := by
  refine ⟨by decide, rfl, rfl, by decide⟩

/-- C6 (amended): for a `choice` field with a packCode and a
label-to-value mapping, packing the field with a label not in the
mapping fails with `UnknownChoiceLabel` naming the field, and a mapped
label is substituted by its numeric wire value before encoding;
moreover a successful whole-payload pack implies every such field's
supplied label was mapped (no default is ever packed).  (Unamended, the
claim is false: a mapping-backed choice field *without* a packCode is
silently skipped, so packing succeeds with an unmapped label — see
`C6_cex`.) -/
theorem C6_choice_label :
    (∀ (name : String) (fd : FieldDef) (p : String) (w : Nat)
       (m : List (String × Int)),
       getPacker fd = some p → calcsizeNative (cleanPacker p) = some w →
       fd.ftype = some "choice" → fd.choiceValues = some (.mapVals m) →
       (∀ lbl : String, m.lookup lbl = none →
          packField name fd (.vStr lbl) = .error (.unknownChoiceLabel name)) ∧
       (∀ (lbl : String) (n : Int), m.lookup lbl = some n →
          packField name fd (.vStr lbl) =
            packWithCode name p
              (if w > 1 then packIsBigEndian fd.byte_order else true) (.vInt n))) ∧
    (∀ (tpl : Template) (vals : List (String × Value)) (bs : List Nat),
       packGeneratedData vals tpl = .ok bs →
       ∀ nm ∈ tpl.field_order, ∀ (fd : FieldDef) (p : String)
         (m : List (String × Int)) (lbl : String),
         (tpl.fields.lookup nm).getD FieldDef.empty = fd →
         getPacker fd = some p →
         fd.ftype = some "choice" → fd.choiceValues = some (.mapVals m) →
         vals.lookup nm = some (.vStr lbl) →
         (m.lookup lbl).isSome) := by
  have hsubst : ∀ (name : String) (fd : FieldDef) (m : List (String × Int))
      (lbl : String),
      fd.ftype = some "choice" → fd.choiceValues = some (.mapVals m) →
      choiceSubst name fd (.vStr lbl) =
        match m.lookup lbl with
        | some n => .ok (.vInt n)
        | none => .error (.unknownChoiceLabel name) := by
    intro name fd m lbl ht hcv
    unfold choiceSubst
    rw [if_pos ht, hcv]
  constructor
  · intro name fd p w m hp hw ht hcv
    constructor
    · intro lbl hnone
      rw [packField_packer_eq name fd (.vStr lbl) hp, hw]
      simp only []
      rw [hsubst name fd m lbl ht hcv, hnone]
    · intro lbl n hsome
      rw [packField_packer_eq name fd (.vStr lbl) hp, hw]
      simp only []
      rw [hsubst name fd m lbl ht hcv, hsome]
  · intro tpl vals bs h nm hnm fd p m lbl hfd hp ht hcv hv
    obtain ⟨chunks, hf, _⟩ :=
      packFields_ok_structure tpl.fields vals tpl.field_order bs h
    obtain ⟨chunk, v, hv', hok⟩ := forall2_mem_left hf nm hnm
    rw [hv] at hv'
    injection hv' with hv''
    subst hv''
    rw [hfd] at hok
    rw [packField_packer_eq nm fd (.vStr lbl) hp] at hok
    cases hcs : calcsizeNative (cleanPacker p) with
    | none => rw [hcs] at hok; simp at hok
    | some w =>
      rw [hcs] at hok
      simp only [] at hok
      rw [hsubst nm fd m lbl ht hcv] at hok
      cases hl : m.lookup lbl with
      | none => rw [hl] at hok; simp at hok
      | some n => simp

/-- C6 witness: packing the unmapped label `off` into a byte-wide
mapping-backed choice field fails with `UnknownChoiceLabel` naming the
field. -/
theorem C6_choice_label_witness :
    packField "m" fdChoiceB (.vStr "off") = .error (.unknownChoiceLabel "m") :=
  (C6_choice_label.1 "m" fdChoiceB "B" 1 [("on", 1)] rfl rfl rfl rfl).1 "off" rfl

/-- C6 counterexample: a mapping-backed choice field without a packCode
is skipped by the packer, so packing the unmapped label `y` succeeds
(with an empty payload) instead of always failing with
`UnknownChoiceLabel`. -/
theorem C6_cex :
    fdChoiceNoPacker.ftype = some "choice" ∧
    fdChoiceNoPacker.choiceValues = some (.mapVals [("x", 1)]) ∧
    ([("x", (1 : Int))].lookup "y" = none) ∧
    packGeneratedData valsC6 tplC6 = .ok [] := by
  refine ⟨rfl, rfl, rfl, rfl⟩

/-- C7: the value generator's default `max` for an unsigned field of
packer width `w` is `2^(8w)` — one more than the claimed `2^(8w)-1` —
so the drawn maximum 256 for packer `B` cannot be packed by that very
packer; the signed and packer-less defaults match the claim
(`2^(8w-1)-1`, and `2^32-1` / `2^31-1` respectively). -/
theorem C7_unsigned_default_bug :
    generateValueSpec fdUintB = .intRange 0 (2 ^ 8) ∧
    ((2 ^ 8 : Int) ≠ 2 ^ 8 - 1) ∧
    packField "x" fdUintB (.vInt (2 ^ 8)) = .error (.structError "x") ∧
    generateValueSpec fdIntB = .intRange 0 (2 ^ 7 - 1) ∧
    generateValueSpec fdUintNoPk = .intRange 0 (2 ^ 32 - 1) ∧
    generateValueSpec fdIntNoPk = .intRange 0 (2 ^ 31 - 1) := by
  refine ⟨by decide, by decide, by decide, by decide, by decide, by decide⟩

/-- C8 (amended): the template loader rejects a document exactly when
the field-order key or the fields key is missing or some name in field
order has no definition; missing `length`/`lengthBytes` attributes are
*not* checked at load time (see `C8_cex`), and on rejection no template
is produced. -/
theorem C8_loader_checks (doc : TemplateDoc) :
    (doc.field_order = none → loadPayloadTemplate doc = none) ∧
    (doc.fields = none → loadPayloadTemplate doc = none) ∧
    (∀ (fo : List String) (fs : List (String × FieldDef)),
       doc.field_order = some fo → doc.fields = some fs →
       ((∃ n ∈ fo, fs.lookup n = none) → loadPayloadTemplate doc = none) ∧
       ((∀ n ∈ fo, (fs.lookup n).isSome) →
          loadPayloadTemplate doc = some ⟨fo, fs⟩)) := by
  refine ⟨?_, ?_, ?_⟩
  · intro h
    unfold loadPayloadTemplate
    rw [h]
  · intro h
    unfold loadPayloadTemplate
    rw [h]
    cases doc.field_order <;> rfl
  · intro fo fs hfo hfs
    constructor
    · rintro ⟨n, hn, hnone⟩
      unfold loadPayloadTemplate
      rw [hfo, hfs]
      simp only []
      rw [if_neg]
      intro hall
      rw [List.all_eq_true] at hall
      have := hall n hn
      rw [hnone] at this
      cases this
    · intro hall
      unfold loadPayloadTemplate
      rw [hfo, hfs]
      simp only []
      rw [if_pos]
      rw [List.all_eq_true]
      intro n hn
      exact hall n hn

/-- C8 witness: a document with no field-order key is rejected. -/
theorem C8_loader_checks_witness : loadPayloadTemplate docNoOrder = none :=
  (C8_loader_checks docNoOrder).1 rfl

/-- C8 counterexample: a document whose string field has neither a
packCode nor a `length` attribute is accepted by the loader, contrary
to the claim that such documents are rejected. -/
theorem C8_cex :
    fdStrNoLen.ftype = some "string" ∧
    fdStrNoLen.packer = none ∧
    fdStrNoLen.lengthAttr = none ∧
    loadPayloadTemplate docC8 = some ⟨["s"], [("s", fdStrNoLen)]⟩ := by
  refine ⟨rfl, rfl, rfl, rfl⟩

/-- C3: for every field whose packer is the 8-byte integer code `q` or
`Q`, the generated decoder source assigns
`view.getBig(U)Int64(...).toString()` — a textual conversion — to the
field's key; and concretely, packing `9223372036854775807` as `q` and
running the generated decoder's semantics on those 8 bytes yields the
exact decimal string `"9223372036854775807"`. -/
theorem C3_bigint_textual :
    (∀ (name : String) (fd : FieldDef) (p : String) (chunk : List String) (b : Bool),
       getPacker fd = some p → (p = "q" ∨ p = "Q") →
       fieldLines name fd = .ok (chunk, b) →
       ∃ method le,
         (method = "getBigInt64" ∨ method = "getBigUint64") ∧
         (le = "true" ∨ le = "false") ∧
         ("  data." ++ name ++ " = " ++
           ("view." ++ method ++ "(offset, " ++ le ++ ")" ++
            ".toString(); // Converted BigInt to string")) ∈ chunk) ∧
    packGeneratedData [("x", .vInt 9223372036854775807)] tplQ = .ok qBytes ∧
    decodeUplinkSem tplQ qBytes =
      some ⟨[("x", .jstr "9223372036854775807")], [], []⟩ := by
  refine ⟨?_, rfl, rfl⟩
  intro name fd p chunk b hp hq h
  unfold fieldLines at h
  rw [hp] at h
  simp only [] at h
  cases hq with
  | inl hq =>
    subst hq
    rw [show PACKER_MAP.lookup "q" = some ("getBigInt64", (8 : Nat), true) from rfl] at h
    simp only [] at h
    by_cases hle : jsLittleEndianFlag fd.byte_order = true
    · simp only [if_pos hle] at h
      injection h with h'
      injection h' with h1 h2
      subst h1
      exact ⟨"getBigInt64", "true", Or.inl rfl, Or.inl rfl,
        List.Mem.tail _ (List.Mem.tail _ (List.Mem.head _))⟩
    · simp only [if_neg hle] at h
      injection h with h'
      injection h' with h1 h2
      subst h1
      exact ⟨"getBigInt64", "false", Or.inl rfl, Or.inr rfl,
        List.Mem.tail _ (List.Mem.tail _ (List.Mem.head _))⟩
  | inr hq =>
    subst hq
    rw [show PACKER_MAP.lookup "Q" = some ("getBigUint64", (8 : Nat), true) from rfl] at h
    simp only [] at h
    by_cases hle : jsLittleEndianFlag fd.byte_order = true
    · simp only [if_pos hle] at h
      injection h with h'
      injection h' with h1 h2
      subst h1
      exact ⟨"getBigUint64", "true", Or.inr rfl, Or.inl rfl,
        List.Mem.tail _ (List.Mem.tail _ (List.Mem.head _))⟩
    · simp only [if_neg hle] at h
      injection h with h'
      injection h' with h1 h2
      subst h1
      exact ⟨"getBigUint64", "false", Or.inr rfl, Or.inr rfl,
        List.Mem.tail _ (List.Mem.tail _ (List.Mem.head _))⟩

/-- C3 witness: the lines generated for the concrete 64-bit field `x`
contain the textual-conversion assignment. -/
theorem C3_bigint_textual_witness :
    ∃ method le,
      (method = "getBigInt64" ∨ method = "getBigUint64") ∧
      (le = "true" ∨ le = "false") ∧
      ("  data." ++ "x" ++ " = " ++
        ("view." ++ method ++ "(offset, " ++ le ++ ")" ++
         ".toString(); // Converted BigInt to string")) ∈ chunkQ :=
  C3_bigint_textual.1 "x" fdQ "q" chunkQ false rfl (Or.inl rfl) rfl

/-- C4 (amended): the generated decoder always ends with the fixed
three-key return record (`data`, empty `warnings`, empty `errors`), and
every field with a defined `assignKey` is assigned under that key —
the field's own name for packCode and string fields, but the name
suffixed `_bytes` for hex fields.  (Unamended, the per-field clause is
false for hex fields — see `C4_cex`.) -/
theorem C4_decoder_contract (tpl : Template) (lines : List String)
    (h : generateDecoderFunction tpl = .ok lines) :
    (∃ pre, lines = pre ++ returnBlock) ∧
    (∀ n ∈ tpl.field_order, ∀ fd, tpl.fields.lookup n = some fd →
       ∀ key, assignKey n fd = some key →
         ∃ rest, ("  data." ++ key ++ " = " ++ rest) ∈ lines) := by
  unfold generateDecoderFunction at h
  cases hgb : generateBody tpl.fields tpl.field_order with
  | error e => rw [hgb] at h; simp at h
  | ok pr =>
    rw [hgb] at h
    simp only [] at h
    injection h with h'
    subst h'
    constructor
    · by_cases hpr : pr.2 = true
      · refine ⟨helperLines ++ (headerLines ++ pr.1.flatten), ?_⟩
        rw [if_pos hpr]
        simp
      · rw [Bool.not_eq_true] at hpr
        refine ⟨headerLines ++ pr.1.flatten, ?_⟩
        rw [hpr]
        simp
    · intro n hn fd hfd key hk
      obtain ⟨chunk, b, hfl, hmem⟩ :=
        generateBody_mem tpl.fields tpl.field_order pr.1 pr.2 hgb n hn fd hfd
      obtain ⟨rest, hr⟩ := fieldLines_assign hfl hk
      refine ⟨rest, ?_⟩
      have hflat : ("  data." ++ key ++ " = " ++ rest) ∈ pr.1.flatten :=
        List.mem_flatten.mpr ⟨chunk, hmem, hr⟩
      by_cases hpr : pr.2 = true
      · rw [if_pos hpr]
        simp [List.mem_append, hflat]
      · rw [Bool.not_eq_true] at hpr
        rw [hpr]
        simp [List.mem_append, hflat]

/-- C4 witness: applied to the concrete one-field template `tplQ`, the
generated source ends with the return block and assigns `data.x`. -/
theorem C4_decoder_contract_witness :
    (∃ pre, tplQLines = pre ++ returnBlock) ∧
    (∃ rest, ("  data." ++ "x" ++ " = " ++ rest) ∈ tplQLines) :=
  ⟨(C4_decoder_contract tplQ tplQLines rfl).1,
   (C4_decoder_contract tplQ tplQLines rfl).2 "x" (List.mem_cons_self _ _)
     fdQ rfl "x" rfl⟩

/-- C4 counterexample: for the hex field `id` the generated decoder
assigns under `id_bytes`, and no generated line assigns under the
field's own name `id`. -/
theorem C4_cex :
    generateDecoderFunction tplHex = .ok tplHexLines ∧
    ("  data.id_bytes = input.bytes.slice(offset, offset + 2);") ∈ tplHexLines ∧
    ¬ ∃ rest, ("  data." ++ "id" ++ " = " ++ rest) ∈ tplHexLines := by
  refine ⟨by decide, by decide, assign_line_not_mem (by decide)⟩

/-- C9: an unknown charset name never fails string generation — the
draw simply uses the alphanumeric alphabet (with the declared length)
instead. -/
theorem C9_unknown_charset (fd : FieldDef) (cs : String)
    (ht : fd.ftype = some "string") (hcs : fd.charset = some cs)
    (h1 : cs ≠ "alphanumeric") (h2 : cs ≠ "hex") (h3 : cs ≠ "ascii") :
    generateValueSpec fd = .stringFrom alnumChars (fd.lengthAttr.getD 1) := by
  unfold generateValueSpec
  rw [ht]
  simp only []
  rw [if_neg (by decide : ¬("string" = "int" ∨ "string" = "uint"))]
  rw [if_neg (by decide : ("string" : String) ≠ "float")]
  rw [if_pos trivial]
  rw [hcs]
  simp only [Option.getD_some]
  by_cases h4 : cs = "alnum"
  · subst h4
    rfl
  · unfold charOptionsMap
    rw [if_neg h1, if_neg h4, if_neg h2, if_neg h3]

/-- C9 witness: a string field of length 5 with the unknown charset
`base64` generates from the alphanumeric alphabet. -/
theorem C9_unknown_charset_witness :
    generateValueSpec fdStrWeird = .stringFrom alnumChars 5 :=
  C9_unknown_charset fdStrWeird "base64" rfl rfl
    (by decide) (by decide) (by decide)

/-- C10: the packer (`== 'big'` test, little-endian otherwise) and the
generated decoder (`== 'little'` test, big-endian otherwise) resolve
the same endianness exactly when the byte-order attribute is absent,
`big`, or `little`; for every other string the packer encodes
little-endian while the decoder reads big-endian. -/
theorem C10_endian_divergence (bo : Option String) :
    (packerEndian bo = decoderEndian bo ↔
       (bo = none ∨ bo = some "big" ∨ bo = some "little")) ∧
    (¬(bo = none ∨ bo = some "big" ∨ bo = some "little") →
       packerEndian bo = .little ∧ decoderEndian bo = .big) := by
  cases bo with
  | none => exact ⟨by decide, fun hc => absurd (Or.inl rfl) hc⟩
  | some s =>
    by_cases h1 : s = "big"
    · subst h1
      exact ⟨by decide, fun hc => absurd (Or.inr (Or.inl rfl)) hc⟩
    · by_cases h2 : s = "little"
      · subst h2
        exact ⟨by decide, fun hc => absurd (Or.inr (Or.inr rfl)) hc⟩
      · have hp : packerEndian (some s) = .little := by
          unfold packerEndian packIsBigEndian
          simp [beq_iff_eq, h1]
        have hd : decoderEndian (some s) = .big := by
          unfold decoderEndian jsLittleEndianFlag
          simp [beq_iff_eq, h2]
        refine ⟨?_, fun _ => ⟨hp, hd⟩⟩
        rw [hp, hd]
        constructor
        · intro hcontra
          exact absurd hcontra (by decide)
        · rintro (h | h | h)
          · cases h
          · injection h with h'
            exact absurd h' h1
          · injection h with h'
            exact absurd h' h2

/-- C10 witness: at the misspelled byte order `Big` the packer encodes
little-endian while the generated decoder reads big-endian. -/
theorem C10_endian_divergence_witness :
    packerEndian (some "Big") = .little ∧ decoderEndian (some "Big") = .big :=
  (C10_endian_divergence (some "Big")).2 (by decide)

end TTN
